import Mathlib

/-!
# Redis Caching and Pub/Sub demo — verification of the backend logic

A shallow embedding of `Backend/server.js`: the `GET /products` read path
(cache-aside with a fixed key and a 3600 s ttl), the `POST /product` write
path (insert, cache invalidation, pub/sub publish), and the subscriber-side
relay of bus messages to connected Socket.IO sessions.

JS strings are modelled as `List Char`.  The external collaborators
(Redis, SQLite, the JSON library) are modelled from their documented
contracts; everything else is translated directly from the source.
-/

namespace RedisDemo

/-! ## JSON text building blocks

Modelled from the spec: Node's `JSON.stringify` / `JSON.parse` pair, which
the source uses to serialize the product rows into the cache value
(`server.js` line 130) and to decode a cache hit (line 119).  The model
covers the value shapes the server actually serializes: decimal natural
numbers, strings with the quote and backslash metacharacters escaped,
`null`, and arrays/objects of those. -/

/-- The `{` character, kept out of string literals. -/
def lbrace : Char := Char.ofNat 123

/-- The `}` character, kept out of string literals. -/
def rbrace : Char := Char.ofNat 125

/-- Decimal digit character for `d < 10`. -/
def digitChar (d : Nat) : Char := Char.ofNat (48 + d)

/-- Is `c` a decimal digit? -/
def isDigitCh (c : Char) : Bool := 48 ≤ c.toNat && c.toNat ≤ 57

/-- Numeric value of a digit character. -/
def charDigit (c : Char) : Nat := c.toNat - 48

/-- Decimal representation, most significant digit first (fuel-indexed so
that it is structurally recursive; any `fuel > n` gives the digits). -/
def natDigitsAux : Nat → Nat → List Char
  | 0, _ => []
  | fuel + 1, n =>
    if n < 10 then [digitChar n]
    else natDigitsAux fuel (n / 10) ++ [digitChar (n % 10)]

/-- Decimal representation of a natural number, most significant digit first. -/
def natDigits (n : Nat) : List Char := natDigitsAux (n + 1) n

/-- Split a leading run of digit characters off a character stream. -/
def takeDigits : List Char → List Char × List Char
  | [] => ([], [])
  | c :: rest =>
    if isDigitCh c then
      let p := takeDigits rest
      (c :: p.1, p.2)
    else ([], c :: rest)

/-- Value of a digit string (most significant first). -/
def digitsVal (l : List Char) : Nat := l.foldl (fun acc c => acc * 10 + charDigit c) 0

/-- Parse a decimal natural number off the front of a character stream. -/
def parseNat (s : List Char) : Option (Nat × List Char) :=
  match takeDigits s with
  | ([], _) => none
  | (ds, rest) => some (digitsVal ds, rest)

/-- JSON escaping of one character (quote and backslash get a backslash). -/
def escChar (c : Char) : List Char :=
  if c = '\\' then ['\\', '\\']
  else if c = '"' then ['\\', '"']
  else [c]

/-- JSON escaping of a string body. -/
def escape : List Char → List Char
  | [] => []
  | c :: rest => escChar c ++ escape rest

/-- Parse a JSON string body up to (and consuming) the closing quote.
The flag records whether the previous character was an unconsumed
backslash. Returns the decoded body and the remaining stream. -/
def parseStringBody : Bool → List Char → Option (List Char × List Char)
  | _, [] => none
  | true, c :: rest =>
    if c = '\\' ∨ c = '"' then
      match parseStringBody false rest with
      | some (s, r) => some (c :: s, r)
      | none => none
    else none
  | false, c :: rest =>
    if c = '"' then some ([], rest)
    else if c = '\\' then parseStringBody true rest
    else
      match parseStringBody false rest with
      | some (s, r) => some (c :: s, r)
      | none => none

/-- Consume an expected literal token off the front of a stream. -/
def dropTok : List Char → List Char → Option (List Char)
  | [], s => some s
  | _ :: _, [] => none
  | t :: ts, c :: cs => if c = t then dropTok ts cs else none

/-- The head of a stream is not a digit (true also for the empty stream). -/
def headNotDigit : List Char → Bool
  | [] => true
  | c :: _ => !isDigitCh c

/-! ## Products and their JSON form -/

/-- A row of the `products` table (`server.js` lines 75–79): `id` assigned by
the store, required `name`, optional `description` (`NULL` when absent). -/
structure Product where
  id : Nat
  name : List Char
  description : Option (List Char)
deriving Repr, DecidableEq

/-- Literal `{"id":` opening a product object. -/
def idTok : List Char := lbrace :: "\"id\":".toList

/-- Literal `,"name":"` (up to and including the opening quote). -/
def nameTok : List Char := ",\"name\":\"".toList

/-- Literal `,"description":` (after the closing quote of the name). -/
def descTok : List Char := ",\"description\":".toList

/-- `JSON.stringify` of one product row, key order `id`, `name`,
`description` (SQLite column order); an absent description is `null`. -/
def stringifyProduct (p : Product) : List Char :=
  idTok ++ natDigits p.id
    ++ nameTok ++ escape p.name ++ '"' :: descTok
    ++ (match p.description with
        | none => "null".toList
        | some d => '"' :: (escape d ++ ['"']))
    ++ [rbrace]

/-- Comma-separated product objects (the inside of the JSON array). -/
def stringifyProductsAux : List Product → List Char
  | [] => []
  | [p] => stringifyProduct p
  | p :: rest => stringifyProduct p ++ ',' :: stringifyProductsAux rest

/-- `JSON.stringify` of the full row list (`server.js` line 130). -/
def stringifyProducts (l : List Product) : List Char :=
  '[' :: (stringifyProductsAux l ++ [']'])

/-- Parse one product object off the front of a stream. -/
def parseProduct (s : List Char) : Option (Product × List Char) :=
  match dropTok idTok s with
  | none => none
  | some s1 =>
    match parseNat s1 with
    | none => none
    | some (n, s2) =>
      match dropTok nameTok s2 with
      | none => none
      | some s3 =>
        match parseStringBody false s3 with
        | none => none
        | some (nm, s4) =>
          match dropTok descTok s4 with
          | none => none
          | some s5 =>
            match dropTok ("null".toList) s5 with
            | some s6 =>
              match dropTok [rbrace] s6 with
              | some s7 => some (⟨n, nm, none⟩, s7)
              | none => none
            | none =>
              match dropTok ['"'] s5 with
              | none => none
              | some s6 =>
                match parseStringBody false s6 with
                | none => none
                | some (d, s7) =>
                  match dropTok [rbrace] s7 with
                  | some s8 => some (⟨n, nm, some d⟩, s8)
                  | none => none

/-- Parse a comma-separated run of product objects (fuel-indexed). -/
def parseProductsAux : Nat → List Char → Option (List Product × List Char)
  | 0, _ => none
  | fuel + 1, s =>
    match parseProduct s with
    | none => none
    | some (p, s1) =>
      match s1 with
      | ',' :: s2 =>
        match parseProductsAux fuel s2 with
        | some (ps, r) => some (p :: ps, r)
        | none => none
      | _ => some ([p], s1)

/-- `JSON.parse` of a product-array document (`server.js` line 119):
succeeds exactly on a full JSON array of product objects. -/
def parseProducts (s : List Char) : Option (List Product) :=
  match s with
  | [] => none
  | c :: s1 =>
    if c = '[' then
      if s1 = [']'] then some []
      else
        match parseProductsAux s1.length s1 with
        | some (ps, r) => if r = [']'] then some ps else none
        | none => none
    else none

/-! ## Cache Layer

Modelled from the spec: the Cache Layer is the external Redis service
reached through `redisClient` (`GET`/`SETEX`/`DEL`); a key–value store
whose entries expire, where `get` after `set` with unexpired ttl returns
the value last set, an elapsed ttl makes the entry absent, and deleting
an absent key is a no-op.  Time is an explicit natural-number clock. -/

/-- One cache entry: the stored text and the absolute expiry instant. -/
structure CacheEntry where
  value : List Char
  expiresAt : Nat
deriving Repr, DecidableEq

/-- The cache: an association list from keys to live entries. -/
def Cache := List (String × CacheEntry)

instance : DecidableEq Cache := by
  unfold Cache
  infer_instance

/-- `SETEX key ttl value` at instant `now`: (re)bind the key with expiry
`now + ttl`. -/
def cacheSet (c : Cache) (now : Nat) (key : String) (value : List Char) (ttl : Nat) : Cache :=
  (key, ⟨value, now + ttl⟩) :: c.filter (fun kv => kv.1 != key)

/-- `GET key` at instant `now`: the bound value, unless the entry's ttl has
elapsed, in which case the key is absent. -/
def cacheGet (c : Cache) (now : Nat) (key : String) : Option (List Char) :=
  match c.find? (fun kv => kv.1 == key) with
  | some kv => if now ≤ kv.2.expiresAt then some kv.2.value else none
  | none => none

/-- `DEL key`: drop the binding (idempotent on absent keys). -/
def cacheDel (c : Cache) (key : String) : Cache :=
  c.filter (fun kv => kv.1 != key)

/-! ## Record Store

Modelled from the spec: the Record Store is the external SQLite database
holding the `products` table (`server.js` lines 75–79).  `id INTEGER
PRIMARY KEY AUTOINCREMENT` assigns each insert a strictly increasing,
previously-unused id, reported back as `this.lastID`; `SELECT * FROM
products` scans all rows. -/

/-- The store: the rows plus the next id the AUTOINCREMENT counter will
assign (`1` on a fresh database). -/
structure Db where
  rows : List Product
  nextId : Nat
deriving Repr, DecidableEq

/-- A freshly created database. -/
def Db.init : Db := ⟨[], 1⟩

/-- `INSERT INTO products (name, description) VALUES (?, ?)`: returns the
assigned id (`this.lastID`) and the updated store. -/
def dbInsert (db : Db) (name : List Char) (description : Option (List Char)) :
    Nat × Db :=
  (db.nextId, ⟨db.rows ++ [⟨db.nextId, name, description⟩], db.nextId + 1⟩)

/-- Store invariant: every existing row id is below the counter. -/
def dbInv (db : Db) : Prop := ∀ r ∈ db.rows, r.id < db.nextId

instance (db : Db) : Decidable (dbInv db) := by
  unfold dbInv
  infer_instance

/-! ## Change events and the publish message

From `server.js` lines 169–175: on a successful insert the server
publishes `JSON.stringify({type: 'NEW_PRODUCT', payload: {id, name,
description}})` on the `product_updates` channel.  (The spec's abstract
vocabulary `kind`/`NEW_ENTITY`/`entity` names the source's
`type`/`'NEW_PRODUCT'`/`payload`.) -/

/-- The tag of a change event; the write path only ever emits
`NEW_PRODUCT`. -/
inductive ChangeEventKind where
  | NEW_PRODUCT
deriving Repr, DecidableEq

/-- The tagged payload published on write. -/
structure ChangeEvent where
  type : ChangeEventKind
  payload : Product
deriving Repr, DecidableEq

/-- `JSON.stringify` of the payload object `{id, name, description}`.
`req.body.description` is `undefined` when the field was not submitted,
and `JSON.stringify` omits keys bound to `undefined`. -/
def stringifyPayload (p : Product) : List Char :=
  idTok ++ natDigits p.id
    ++ nameTok ++ escape p.name ++ ['"']
    ++ (match p.description with
        | none => []
        | some d => descTok ++ '"' :: (escape d ++ ['"']))
    ++ [rbrace]

/-- `JSON.stringify` of the whole change-event object. -/
def stringifyChangeEvent (e : ChangeEvent) : List Char :=
  lbrace :: ("\"type\":\"NEW_PRODUCT\",\"payload\":".toList
    ++ stringifyPayload e.payload ++ [rbrace])

/-! ## The server -/

/-- Process-wide state visible to the handlers: the SQLite database, the
Redis cache, and the log of messages handed to the Redis publisher. -/
structure ServerState where
  db : Db
  cache : Cache
  published : List (String × List Char)
deriving DecidableEq

/-- Response bodies produced by the two handlers. -/
inductive Body where
  /-- `res.json(rows)` / `res.json(JSON.parse(cached))`: a product array. -/
  | products (l : List Product)
  /-- The 201 body `{message, productId}`. -/
  | created (message : List Char) (productId : Nat)
  /-- An `{error}` body. -/
  | error (message : List Char)
deriving Repr, DecidableEq

/-- An HTTP response: status code and body. -/
structure Resp where
  status : Nat
  body : Body
deriving Repr, DecidableEq

/-- Side effects a handler performed against the external collaborators,
in order. Only operations that reached the collaborator and succeeded are
recorded. -/
inductive Effect where
  | cacheRead (key : String)
  | dbScan
  | cacheWrite (key : String) (value : List Char) (ttl : Nat)
  | dbWrite (name : List Char) (description : Option (List Char))
  | cacheInvalidate (key : String)
  | busPublish (channel : String) (message : List Char)
deriving Repr, DecidableEq

/-- What a handler run produced: the response sent (if any — `none` when
the handler aborted without ever calling `res`), the new process state,
and the effect trace. -/
structure HandlerResult where
  response : Option Resp
  state : ServerState
  effects : List Effect
deriving DecidableEq

/-- The fixed cache key used by both handlers (`server.js` lines 112, 148). -/
def cacheKey : String := "all_products"

/-- `GET /products` (`server.js` lines 111–139), at clock instant `now`.

The booleans say whether each call to an external collaborator succeeds
(`false` = the awaited promise rejects / the sqlite callback gets an
error):
* `cacheGetOk` — `redisClient.get(cacheKey)`.  On rejection the `await`
  throws inside the handler's `try`, so the `catch` answers
  `500 {error: 'Internal server error'}` and the database is never
  consulted.
* `dbOk` — `db.all('SELECT * FROM products')`.  On error the callback
  answers `500 {error: 'Failed to fetch products from database'}` and the
  cache is left untouched.
* `cacheSetOk` — `redisClient.setEx(cacheKey, 3600, JSON.stringify(rows))`.
  This `await` runs inside the `db.all` callback, *outside* the handler's
  `try`; on rejection the async callback aborts before `res.status(200)`
  is reached, so no response is ever sent (the promise rejection is
  unhandled).

On a cache hit the handler answers `200 JSON.parse(cached)` without
touching the database or the cache; a value `JSON.parse` rejects is
answered by the `catch` as above. -/
def getProducts (st : ServerState) (now : Nat)
    (cacheGetOk dbOk cacheSetOk : Bool) : HandlerResult :=
  if cacheGetOk then
    match cacheGet st.cache now cacheKey with
    | some cached =>
      match parseProducts cached with
      | some l => ⟨some ⟨200, .products l⟩, st, [.cacheRead cacheKey]⟩
      | none => ⟨some ⟨500, .error ("Internal server error".toList)⟩, st,
          [.cacheRead cacheKey]⟩
    | none =>
      if dbOk then
        if cacheSetOk then
          ⟨some ⟨200, .products st.db.rows⟩,
            { st with cache :=
                cacheSet st.cache now cacheKey (stringifyProducts st.db.rows) 3600 },
            [.cacheRead cacheKey, .dbScan,
              .cacheWrite cacheKey (stringifyProducts st.db.rows) 3600]⟩
        else
          ⟨none, st, [.cacheRead cacheKey, .dbScan]⟩
      else
        ⟨some ⟨500, .error ("Failed to fetch products from database".toList)⟩, st,
          [.cacheRead cacheKey]⟩
  else
    ⟨some ⟨500, .error ("Internal server error".toList)⟩, st, [.cacheRead cacheKey]⟩

/-- `POST /product` (`server.js` lines 146–186).

`name`/`description` model `req.body.name`/`req.body.description`
(`none` = field absent). The JS guard `if (!name)` is falsy both for an
absent and for an empty name and answers `400` before any side effect.

The booleans say whether each external call succeeds:
* `dbOk` — `db.run('INSERT …')`.  On error the callback answers
  `500 {error: 'Failed to add product to database'}`; nothing else runs.
* `cacheDelOk` — `redisClient.del(cacheKey)`.  This `await` runs inside
  the `db.run` callback, outside the `try`; on rejection the callback
  aborts: the insert stays committed, but no publish happens and no
  response is ever sent.
* `publishOk` — `redisPublisher.publish('product_updates', message)`.
  Same position: on rejection the insert and the cache invalidation stay,
  but no response is ever sent.

On full success the handler answers
`201 {message, productId: this.lastID}`. -/
def postProduct (st : ServerState) (name : Option (List Char))
    (description : Option (List Char)) (dbOk cacheDelOk publishOk : Bool) :
    HandlerResult :=
  if name = none ∨ name = some [] then
    ⟨some ⟨400, .error ("Product name is required".toList)⟩, st, []⟩
  else
    let nm := name.getD []
    if dbOk then
      let ins := dbInsert st.db nm description
      let newProductId := ins.1
      if cacheDelOk then
        let message := stringifyChangeEvent ⟨.NEW_PRODUCT, ⟨newProductId, nm, description⟩⟩
        if publishOk then
          ⟨some ⟨201, .created ("Product added successfully and cache invalidated".toList)
              newProductId⟩,
            ⟨ins.2, cacheDel st.cache cacheKey,
              st.published ++ [("product_updates", message)]⟩,
            [.dbWrite nm description, .cacheInvalidate cacheKey,
              .busPublish "product_updates" message]⟩
        else
          ⟨none, ⟨ins.2, cacheDel st.cache cacheKey, st.published⟩,
            [.dbWrite nm description, .cacheInvalidate cacheKey]⟩
      else
        ⟨none, ⟨ins.2, st.cache, st.published⟩, [.dbWrite nm description]⟩
    else
      ⟨some ⟨500, .error ("Failed to add product to database".toList)⟩, st, []⟩

/-- A sequence of `GET /products` requests (all collaborator calls
succeeding) at the given clock instants, threading the server state. -/
def readSeq (st : ServerState) : List Nat → List (Option Resp) × ServerState
  | [] => ([], st)
  | t :: ts =>
    let r := getProducts st t true true true
    let tail := readSeq r.state ts
    (r.response :: tail.1, tail.2)

/-! ## Fan-out Gateway

From `server.js` lines 91–101: the subscriber client is subscribed to
exactly two channels.  A message on `product_updates` is re-emitted to
every connected Socket.IO session as the `product_updated` event; a
message on `custom_channel` is re-emitted to every connected session as
the `custom_channel` event.  `io.emit` broadcasts to all connected
sessions with no per-session filtering; no other channel has a
subscription, so messages on any other channel are never relayed. -/

/-- Connected Socket.IO sessions, by identity. -/
abbrev SessionId := Nat

/-- Deliveries `(session, socket event name, payload)` caused by one bus
message on `channel` while `sessions` are connected. -/
def relay (sessions : List SessionId) (channel : String) (message : List Char) :
    List (SessionId × String × List Char) :=
  if channel = "product_updates" then
    sessions.map (fun sid => (sid, "product_updated", message))
  else if channel = "custom_channel" then
    sessions.map (fun sid => (sid, "custom_channel", message))
  else []

/-! ## Concrete states used to exercise the theorems -/

/-- The spec's example entity. -/
def sampleProduct : Product := ⟨1, "Laptop Pro".toList, none⟩

/-- A server whose store holds one row and whose cache is empty. -/
def sampleState : ServerState := ⟨⟨[sampleProduct], 2⟩, [], []⟩

/-- A server whose cache already holds the all-products snapshot
(populated at instant 0, so live until instant 3600). -/
def sampleCachedState : ServerState :=
  ⟨⟨[sampleProduct], 2⟩,
    [(cacheKey, ⟨stringifyProducts [sampleProduct], 3600⟩)], []⟩

/-! ## Round-trip lemmas for the JSON codec -/

theorem isDigitCh_digitChar (d : Nat) (h : d < 10) : isDigitCh (digitChar d) = true := by
  interval_cases d <;> decide

theorem charDigit_digitChar (d : Nat) (h : d < 10) : charDigit (digitChar d) = d := by
  interval_cases d <;> decide

theorem natDigitsAux_digits (fuel : Nat) :
    ∀ n, n < fuel → ∀ c ∈ natDigitsAux fuel n, isDigitCh c = true := by
  induction fuel with
  | zero => omega
  | succ f ih =>
    intro n hn
    rw [natDigitsAux]
    split
    · intro c hc
      rw [List.mem_singleton] at hc
      subst hc
      exact isDigitCh_digitChar n (by omega)
    · intro c hc
      rw [List.mem_append] at hc
      rcases hc with h | h
      · have hd : n / 10 < n := Nat.div_lt_self (by omega) (by omega)
        exact ih (n / 10) (by omega) c h
      · rw [List.mem_singleton] at h
        subst h
        exact isDigitCh_digitChar _ (Nat.mod_lt _ (by omega))

theorem natDigits_digits (n : Nat) : ∀ c ∈ natDigits n, isDigitCh c = true :=
  natDigitsAux_digits (n + 1) n (by omega)

theorem natDigits_ne_nil (n : Nat) : natDigits n ≠ [] := by
  rw [natDigits, natDigitsAux]
  split
  · simp
  · simp

theorem digitsVal_append (a : List Char) (c : Char) :
    digitsVal (a ++ [c]) = digitsVal a * 10 + charDigit c := by
  simp [digitsVal, List.foldl_append]

theorem digitsVal_natDigitsAux (fuel : Nat) :
    ∀ n, n < fuel → digitsVal (natDigitsAux fuel n) = n := by
  induction fuel with
  | zero => omega
  | succ f ih =>
    intro n hn
    rw [natDigitsAux]
    split
    · next h =>
      simp [digitsVal, List.foldl, charDigit_digitChar n h]
    · next h =>
      have hd : n / 10 < n := Nat.div_lt_self (by omega) (by omega)
      rw [digitsVal_append, ih (n / 10) (by omega),
        charDigit_digitChar _ (Nat.mod_lt _ (by omega))]
      omega

theorem digitsVal_natDigits (n : Nat) : digitsVal (natDigits n) = n :=
  digitsVal_natDigitsAux (n + 1) n (by omega)

theorem takeDigits_append (ds rest : List Char)
    (hds : ∀ c ∈ ds, isDigitCh c = true) (hrest : headNotDigit rest = true) :
    takeDigits (ds ++ rest) = (ds, rest) := by
  induction ds with
  | nil =>
    cases rest with
    | nil => rfl
    | cons c r =>
      have : isDigitCh c = false := by
        simpa [headNotDigit] using hrest
      simp [takeDigits, this]
  | cons c ds ih =>
    have hc : isDigitCh c = true := hds c (by simp)
    have ih' := ih (fun x hx => hds x (by simp [hx]))
    simp [takeDigits, hc, ih']

theorem parseNat_append (n : Nat) (rest : List Char) (hrest : headNotDigit rest = true) :
    parseNat (natDigits n ++ rest) = some (n, rest) := by
  rw [parseNat, takeDigits_append (natDigits n) rest (natDigits_digits n) hrest]
  have h := natDigits_ne_nil n
  cases hd : natDigits n with
  | nil => exact absurd hd h
  | cons c cs =>
    have hv : digitsVal (c :: cs) = n := by
      rw [← hd]
      exact digitsVal_natDigits n
    simp [hv]

theorem dropTok_append (t s : List Char) : dropTok t (t ++ s) = some s := by
  induction t with
  | nil => rfl
  | cons c ts ih => simp [dropTok, ih]

theorem parseStringBody_escape (s rest : List Char) :
    parseStringBody false (escape s ++ ('"' :: rest)) = some (s, rest) := by
  induction s with
  | nil => simp [escape, parseStringBody]
  | cons c s ih =>
    by_cases hb : c = '\\'
    · subst hb
      simp [escape, escChar, parseStringBody, ih]
    · by_cases hq : c = '"'
      · subst hq
        simp [escape, escChar, parseStringBody, ih, hb]
      · simp [escape, escChar, parseStringBody, ih, hb, hq]

theorem dropTok_null_quote (t : List Char) :
    dropTok ("null".toList) ('"' :: t) = none := rfl

theorem dropTok_quote (t : List Char) : dropTok ['"'] ('"' :: t) = some t := rfl

theorem dropTok_rbrace (t : List Char) : dropTok [rbrace] (rbrace :: t) = some t := rfl

theorem headNotDigit_nameTok (t : List Char) : headNotDigit (nameTok ++ t) = true := rfl

theorem parseProduct_stringify (p : Product) (rest : List Char) :
    parseProduct (stringifyProduct p ++ rest) = some (p, rest) := by
  obtain ⟨n, nm, d⟩ := p
  cases d with
  | none =>
    have h0 : stringifyProduct ⟨n, nm, none⟩ ++ rest
        = idTok ++ (natDigits n ++ (nameTok ++ (escape nm
            ++ ('"' :: (descTok ++ ("null".toList ++ (rbrace :: rest))))))) := by
      simp [stringifyProduct, List.append_assoc]
    have h2 := parseNat_append n
      (nameTok ++ (escape nm ++ ('"' :: (descTok ++ ("null".toList ++ (rbrace :: rest))))))
      (headNotDigit_nameTok _)
    simp only [parseProduct, h0, dropTok_append, h2, parseStringBody_escape, dropTok_rbrace]
  | some dd =>
    have h0 : stringifyProduct ⟨n, nm, some dd⟩ ++ rest
        = idTok ++ (natDigits n ++ (nameTok ++ (escape nm
            ++ ('"' :: (descTok ++ ('"' :: (escape dd ++ ('"' :: (rbrace :: rest))))))))) := by
      simp [stringifyProduct, List.append_assoc]
    have h2 := parseNat_append n
      (nameTok ++ (escape nm ++ ('"' :: (descTok
        ++ ('"' :: (escape dd ++ ('"' :: (rbrace :: rest))))))))
      (headNotDigit_nameTok _)
    simp only [parseProduct, h0, dropTok_append, h2, parseStringBody_escape,
      dropTok_null_quote, dropTok_quote, dropTok_rbrace]

theorem stringifyProduct_length_pos (p : Product) : 0 < (stringifyProduct p).length := by
  simp [stringifyProduct, idTok]

theorem stringifyProductsAux_length (l : List Product) (hl : l ≠ []) :
    l.length ≤ (stringifyProductsAux l).length + 1 := by
  induction l with
  | nil => simp at hl
  | cons p l ih =>
    cases l with
    | nil => simp
    | cons q l' =>
      have h1 := stringifyProduct_length_pos p
      have h2 := ih (by simp)
      simp only [stringifyProductsAux, List.length_cons, List.length_append] at *
      omega

theorem parseProductsAux_stringify (l : List Product) (hl : l ≠ []) (fuel : Nat)
    (hf : l.length ≤ fuel) :
    parseProductsAux fuel (stringifyProductsAux l ++ [']']) = some (l, [']']) := by
  induction l generalizing fuel with
  | nil => simp at hl
  | cons p l ih =>
    cases fuel with
    | zero => simp at hf
    | succ f =>
      cases l with
      | nil =>
        simp only [stringifyProductsAux, parseProductsAux, parseProduct_stringify p [']']]
        rfl
      | cons q l' =>
        have harr : stringifyProductsAux (p :: q :: l') ++ [']']
            = stringifyProduct p ++ (',' :: (stringifyProductsAux (q :: l') ++ [']'])) := by
          simp [stringifyProductsAux, List.append_assoc]
        have hrec := ih (by simp) f (by simp at hf ⊢; omega)
        simp only [parseProductsAux, harr, parseProduct_stringify, hrec]

theorem parseProducts_stringify (l : List Product) :
    parseProducts (stringifyProducts l) = some l := by
  cases l with
  | nil => rfl
  | cons p l' =>
    have hne : stringifyProductsAux (p :: l') ++ [']'] ≠ [']'] := by
      intro h
      have h1 := stringifyProduct_length_pos p
      have h2 := congrArg List.length h
      cases l' with
      | nil =>
        simp only [stringifyProductsAux, List.length_append, List.length_cons,
          List.length_nil] at h2
        omega
      | cons q l'' =>
        simp only [stringifyProductsAux, List.length_append, List.length_cons,
          List.length_nil] at h2
        omega
    have hlen : (p :: l').length ≤ (stringifyProductsAux (p :: l') ++ [']']).length := by
      have := stringifyProductsAux_length (p :: l') (by simp)
      simp only [List.length_append, List.length_cons, List.length_nil] at *
      omega
    have haux := parseProductsAux_stringify (p :: l') (by simp)
      (stringifyProductsAux (p :: l') ++ [']']).length hlen
    simp only [stringifyProducts, parseProducts, if_pos rfl, if_neg hne, haux, if_pos rfl]
    simp

/-! ## Cache Layer laws -/

theorem cacheGet_cacheSet (c : Cache) (now : Nat) (k : String) (v : List Char)
    (ttl t' : Nat) :
    cacheGet (cacheSet c now k v ttl) t' k
      = if t' ≤ now + ttl then some v else none := by
  simp [cacheGet, cacheSet]

/-! ## Claim theorems -/

/-- C6: a `GET /products` request that misses the cache and whose store scan
fails is answered `500 {error: 'Failed to fetch products from database'}`,
the state (in particular the cache) is unchanged, and no cache write is
performed. -/
theorem store_failure_propagates_500 (st : ServerState) (now : Nat) (b : Bool)
    (hmiss : cacheGet st.cache now cacheKey = none) :
    getProducts st now true false b
      = ⟨some ⟨500, .error ("Failed to fetch products from database".toList)⟩, st,
          [.cacheRead cacheKey]⟩ := by
  simp [getProducts, hmiss]

theorem store_failure_propagates_500_witness :
    cacheGet sampleState.cache 0 cacheKey = none ∧
    getProducts sampleState 0 true false true
      = ⟨some ⟨500, .error ("Failed to fetch products from database".toList)⟩,
          sampleState, [.cacheRead cacheKey]⟩ :=
  ⟨rfl, store_failure_propagates_500 sampleState 0 true rfl⟩

/-- C7: a `POST /product` whose `name` is missing (or empty, which the JS
falsy test also catches) is answered `400 {error: 'Product name is
required'}` with the state unchanged and an empty effect trace — no store
mutation, no cache invalidation, no publish. -/
theorem missing_name_short_circuits (st : ServerState)
    (name desc : Option (List Char)) (dbOk cacheDelOk publishOk : Bool)
    (hname : name = none ∨ name = some []) :
    postProduct st name desc dbOk cacheDelOk publishOk
      = ⟨some ⟨400, .error ("Product name is required".toList)⟩, st, []⟩ := by
  unfold postProduct
  rw [if_pos hname]

theorem missing_name_short_circuits_witness :
    ((none : Option (List Char)) = none ∨ (none : Option (List Char)) = some []) ∧
    postProduct sampleState none none true true true
      = ⟨some ⟨400, .error ("Product name is required".toList)⟩, sampleState, []⟩ :=
  ⟨Or.inl rfl, missing_name_short_circuits sampleState none none true true true
    (Or.inl rfl)⟩

/-- C10: a `GET /products` served from the cache leaves the whole server
state unchanged (so the cached value and its expiry instant are exactly as
before — a hit does not refresh the ttl), performs no store scan and no
cache write (its only effect is the cache read), and does send a
response. -/
theorem cache_hit_frame (st : ServerState) (now : Nat) (v : List Char)
    (hhit : cacheGet st.cache now cacheKey = some v) :
    (getProducts st now true true true).state = st ∧
    (getProducts st now true true true).effects = [.cacheRead cacheKey] ∧
    (getProducts st now true true true).response.isSome = true := by
  cases hp : parseProducts v <;> simp [getProducts, hhit, hp]

theorem cache_hit_frame_witness :
    cacheGet sampleCachedState.cache 0 cacheKey
        = some (stringifyProducts [sampleProduct]) ∧
    (getProducts sampleCachedState 0 true true true).state = sampleCachedState ∧
    (getProducts sampleCachedState 0 true true true).effects = [.cacheRead cacheKey] ∧
    (getProducts sampleCachedState 0 true true true).response.isSome = true :=
  ⟨by decide, cache_hit_frame sampleCachedState 0 (stringifyProducts [sampleProduct])
    (by decide)⟩

/-- C4: a fully successful `POST /product` answers `201` with the assigned
id, and hands the Notification Bus exactly one message on the reserved
`product_updates` topic: the serialized change event tagged `NEW_PRODUCT`
(the spec's `kind = NEW_ENTITY`) whose payload (the spec's `entity`)
carries the newly assigned id together with the submitted name and
description. -/
theorem publish_event_shape (st : ServerState) (nm : List Char)
    (desc : Option (List Char)) (hnm : nm ≠ []) :
    (postProduct st (some nm) desc true true true).response
        = some ⟨201,
            .created ("Product added successfully and cache invalidated".toList)
              st.db.nextId⟩ ∧
    (postProduct st (some nm) desc true true true).state.published
        = st.published ++ [("product_updates",
            stringifyChangeEvent ⟨.NEW_PRODUCT, ⟨st.db.nextId, nm, desc⟩⟩)] ∧
    (postProduct st (some nm) desc true true true).effects
        = [.dbWrite nm desc, .cacheInvalidate cacheKey,
            .busPublish "product_updates"
              (stringifyChangeEvent ⟨.NEW_PRODUCT, ⟨st.db.nextId, nm, desc⟩⟩)] := by
  simp [postProduct, dbInsert, hnm]

theorem publish_event_shape_witness :
    ("Laptop Pro".toList ≠ []) ∧
    (postProduct sampleState (some ("Laptop Pro".toList)) (some ("x".toList))
        true true true).state.published
      = [("product_updates",
          stringifyChangeEvent
            ⟨.NEW_PRODUCT, ⟨2, "Laptop Pro".toList, some ("x".toList)⟩⟩)] :=
  ⟨by decide, by
    have h := (publish_event_shape sampleState ("Laptop Pro".toList)
      (some ("x".toList)) (by decide)).2.1
    simpa [sampleState] using h⟩

/-- C8: the populating step of `GET /products` always writes the
all-entities snapshot with a ttl of exactly 3600 seconds (both in the
effect trace and in the resulting cache binding), and any cache entry set
with ttl `ttl` at instant `tset` is absent for a `get` at any instant
later than `tset + ttl`, with no intervening write or delete. -/
theorem ttl_3600_and_expiry (st : ServerState) (now : Nat)
    (hmiss : cacheGet st.cache now cacheKey = none)
    (c : Cache) (k : String) (v : List Char) (tset ttl texp : Nat)
    (hexp : tset + ttl < texp) :
    (getProducts st now true true true).effects
        = [.cacheRead cacheKey, .dbScan,
            .cacheWrite cacheKey (stringifyProducts st.db.rows) 3600] ∧
    (getProducts st now true true true).state.cache
        = cacheSet st.cache now cacheKey (stringifyProducts st.db.rows) 3600 ∧
    cacheGet (cacheSet c tset k v ttl) texp k = none := by
  refine ⟨by simp [getProducts, hmiss], by simp [getProducts, hmiss], ?_⟩
  rw [cacheGet_cacheSet, if_neg (by omega)]

theorem ttl_3600_and_expiry_witness :
    cacheGet sampleState.cache 0 cacheKey = none ∧ 0 + 3600 < 3601 ∧
    cacheGet (cacheSet ([] : Cache) 0 cacheKey ("[]".toList) 3600) 3601 cacheKey
      = none :=
  ⟨rfl, by omega,
    (ttl_3600_and_expiry sampleState 0 rfl [] cacheKey ("[]".toList) 0 3600 3601
      (by omega)).2.2⟩

/-- C9: an insert returns the AUTOINCREMENT counter as the assigned id,
which is strictly greater than (hence distinct from) every id already in
the store, and the counter invariant is preserved, so across any sequence
of inserts the assigned ids are strictly increasing and never reused; the
first insert into a fresh database assigns id 1, which `POST /product`
returns to the caller as `productId`. -/
theorem insert_id_fresh_and_first_is_one (db : Db) (n : List Char)
    (d : Option (List Char)) (hinv : dbInv db)
    (nm : List Char) (hnm : nm ≠ []) (desc : Option (List Char)) :
    ((dbInsert db n d).1 = db.nextId ∧
      (∀ r ∈ db.rows, r.id < (dbInsert db n d).1) ∧
      dbInv (dbInsert db n d).2) ∧
    (postProduct ⟨Db.init, [], []⟩ (some nm) desc true true true).response
      = some ⟨201,
          .created ("Product added successfully and cache invalidated".toList) 1⟩ := by
  constructor
  · refine ⟨rfl, hinv, ?_⟩
    intro r hr
    simp only [dbInsert, List.mem_append, List.mem_singleton] at hr
    rcases hr with h | h
    · have := hinv r h
      simp only [dbInsert]
      omega
    · subst h
      simp [dbInsert]
  · simp [postProduct, dbInsert, Db.init, hnm]

theorem insert_id_fresh_and_first_is_one_witness :
    dbInv sampleState.db ∧ "Laptop Pro".toList ≠ [] ∧
    (postProduct ⟨Db.init, [], []⟩ (some ("Laptop Pro".toList)) none
        true true true).response
      = some ⟨201,
          .created ("Product added successfully and cache invalidated".toList) 1⟩ :=
  ⟨by decide, by decide,
    (insert_id_fresh_and_first_is_one sampleState.db ("A".toList) none (by decide)
      ("Laptop Pro".toList) (by decide) none).2⟩

/-- C1: reads with no intervening write agree.  A `GET /products` that
misses the cache is answered with the store's row sequence and populates
the cache; every subsequent read performed no later than 3600 seconds
after the populating read — the serialize-on-set / parse-on-get round
trip included — is served from the cache with exactly the same entity
sequence.  Moreover a cache `get` after a `set` whose ttl has not elapsed
returns the exact value last set. -/
theorem reads_after_miss_consistent (st : ServerState) (t0 : Nat)
    (hmiss : cacheGet st.cache t0 cacheKey = none) :
    (getProducts st t0 true true true).response
        = some ⟨200, .products st.db.rows⟩ ∧
    (∀ ts : List Nat, (∀ t ∈ ts, t ≤ t0 + 3600) →
      (readSeq (getProducts st t0 true true true).state ts).1
        = ts.map (fun _ => some ⟨200, Body.products st.db.rows⟩)) ∧
    (∀ (c : Cache) (now : Nat) (k : String) (v : List Char) (ttl t' : Nat),
      t' ≤ now + ttl → cacheGet (cacheSet c now k v ttl) t' k = some v) := by
  refine ⟨by simp [getProducts, hmiss], ?_, ?_⟩
  · generalize hst1 : (getProducts st t0 true true true).state = st1
    have hcache : st1.cache
        = cacheSet st.cache t0 cacheKey (stringifyProducts st.db.rows) 3600 := by
      rw [← hst1]
      simp [getProducts, hmiss]
    have hstep : ∀ t, t ≤ t0 + 3600 →
        getProducts st1 t true true true
          = ⟨some ⟨200, .products st.db.rows⟩, st1, [.cacheRead cacheKey]⟩ := by
      intro t ht
      have hhit : cacheGet st1.cache t cacheKey
          = some (stringifyProducts st.db.rows) := by
        rw [hcache, cacheGet_cacheSet, if_pos (by omega)]
      simp [getProducts, hhit, parseProducts_stringify]
    intro ts
    induction ts with
    | nil => intro _; rfl
    | cons t ts ih =>
      intro hts
      simp only [readSeq, hstep t (hts t (by simp)), List.map_cons]
      exact congrArg _ (ih (fun u hu => hts u (by simp [hu])))
  · intro c now k v ttl t' ht
    rw [cacheGet_cacheSet, if_pos ht]

theorem reads_after_miss_consistent_witness :
    cacheGet sampleState.cache 0 cacheKey = none ∧
    (∀ t ∈ [0, 1800, 3600], t ≤ 0 + 3600) ∧
    (readSeq (getProducts sampleState 0 true true true).state [0, 1800, 3600]).1
      = [some ⟨200, .products sampleState.db.rows⟩,
          some ⟨200, .products sampleState.db.rows⟩,
          some ⟨200, .products sampleState.db.rows⟩] :=
  ⟨rfl, by decide, by
    have h := (reads_after_miss_consistent sampleState 0 rfl).2.1
      [0, 1800, 3600] (by decide)
    simpa using h⟩

/-- C2: the claim that a Cache Layer failure never fails a `GET /products`
request is false on the code: with one row in the store and an empty
cache, a failing cache `get` is answered `500 {error: 'Internal server
error'}` by the handler's `catch` instead of the fresh row sequence, and a
failing cache `setEx` after a successful scan aborts the `db.all` callback
so that no response at all is sent. -/
theorem cache_error_not_swallowed_cex :
    (getProducts sampleState 0 false true true).response
        = some ⟨500, .error ("Internal server error".toList)⟩ ∧
    (getProducts sampleState 0 false true true).response
        ≠ some ⟨200, .products sampleState.db.rows⟩ ∧
    (getProducts sampleState 0 true true false).response = none := by
  refine ⟨rfl, ?_, rfl⟩
  decide

/-- C2 (amended): a Cache Layer failure on `GET /products` fails the
request rather than being swallowed: a failing cache `get` yields
`500 {error: 'Internal server error'}` with the Record Store never
consulted and the state unchanged, and a failing cache `set` on the
populating step (after a successful scan) leaves the request with no
response at all, the state again unchanged. -/
theorem cache_error_fails_request (st : ServerState) (now : Nat)
    (dbOk cacheSetOk : Bool)
    (hmiss : cacheGet st.cache now cacheKey = none) :
    getProducts st now false dbOk cacheSetOk
      = ⟨some ⟨500, .error ("Internal server error".toList)⟩, st,
          [.cacheRead cacheKey]⟩ ∧
    getProducts st now true true false
      = ⟨none, st, [.cacheRead cacheKey, .dbScan]⟩ := by
  exact ⟨by simp [getProducts], by simp [getProducts, hmiss]⟩

theorem cache_error_fails_request_witness :
    cacheGet sampleState.cache 0 cacheKey = none ∧
    getProducts sampleState 0 true true false
      = ⟨none, sampleState, [.cacheRead cacheKey, .dbScan]⟩ :=
  ⟨rfl, (cache_error_fails_request sampleState 0 true true rfl).2⟩

/-- C3: the claim that a successful insert is always answered `201` with
the assigned id even when the cache delete or the publish fails is false
on the code: with a failing cache `del` (or a failing `publish`) the
`db.run` callback aborts at the rejected `await`, so the committed insert
is never reported — no response is sent at all. -/
theorem write_no_response_on_downstream_failure_cex :
    (postProduct sampleState (some ("A".toList)) none true false true).response
        = none ∧
    (postProduct sampleState (some ("A".toList)) none true false true).state.db.rows
        = sampleState.db.rows ++ [⟨2, "A".toList, none⟩] ∧
    (postProduct sampleState (some ("A".toList)) none true true false).response
        = none := by
  refine ⟨rfl, ?_, rfl⟩
  decide

/-- C3 (amended): a successful insert is never rolled back — the new row
(and, once reached, the cache invalidation) stays committed whatever
happens downstream — but the `201 {message, productId}` response is only
sent when both the cache delete and the publish succeed; if either fails
the handler aborts without sending any response. -/
theorem persist_committed_response_requires_downstream (st : ServerState)
    (nm : List Char) (desc : Option (List Char)) (hnm : nm ≠ []) :
    postProduct st (some nm) desc true false true
      = ⟨none, ⟨(dbInsert st.db nm desc).2, st.cache, st.published⟩,
          [.dbWrite nm desc]⟩ ∧
    postProduct st (some nm) desc true true false
      = ⟨none, ⟨(dbInsert st.db nm desc).2, cacheDel st.cache cacheKey,
            st.published⟩,
          [.dbWrite nm desc, .cacheInvalidate cacheKey]⟩ ∧
    (postProduct st (some nm) desc true true true).response
      = some ⟨201,
          .created ("Product added successfully and cache invalidated".toList)
            st.db.nextId⟩ := by
  refine ⟨?_, ?_, ?_⟩ <;> simp [postProduct, dbInsert, hnm]

theorem persist_committed_response_requires_downstream_witness :
    "A".toList ≠ [] ∧
    postProduct sampleState (some ("A".toList)) none true false true
      = ⟨none, ⟨(dbInsert sampleState.db ("A".toList) none).2, sampleState.cache,
            sampleState.published⟩,
          [.dbWrite ("A".toList) none]⟩ :=
  ⟨by decide,
    (persist_committed_response_requires_downstream sampleState ("A".toList) none
      (by decide)).1⟩

/-- C5: the claim that a message published on any topic is relayed to
every connected session is false on the code: with session 0 connected, a
message on topic `alerts` — a topic with no subscription in
`server.js` — is relayed to no session at all. -/
theorem custom_topic_not_relayed_cex :
    relay [0] "alerts" ("hi".toList) = [] ∧ ([0] : List SessionId) ≠ [] := by
  exact ⟨rfl, by decide⟩

/-- C5 (amended): exactly the two subscribed topics are relayed, and on
those the fan-out is unconditional: a message on `product_updates` is
delivered as the `product_updated` event to every currently connected
session, a message on `custom_channel` is delivered as the
`custom_channel` event to every currently connected session — no
per-session filtering in either case — and a message on any other topic
is delivered to no session. -/
theorem relay_policy (sessions : List SessionId) (channel : String)
    (msg : List Char) :
    (channel = "product_updates" →
      relay sessions channel msg
        = sessions.map (fun sid => (sid, "product_updated", msg))) ∧
    (channel = "custom_channel" →
      relay sessions channel msg
        = sessions.map (fun sid => (sid, "custom_channel", msg))) ∧
    (channel ≠ "product_updates" → channel ≠ "custom_channel" →
      relay sessions channel msg = []) := by
  refine ⟨fun h => ?_, fun h => ?_, fun h1 h2 => ?_⟩
  · subst h
    rfl
  · subst h
    rfl
  · simp [relay, h1, h2]

theorem relay_policy_witness :
    ("product_updates" : String) = "product_updates" ∧
    relay [0, 1] "product_updates" ['m']
      = [(0, "product_updated", ['m']), (1, "product_updated", ['m'])] ∧
    relay [0, 1] "alerts" ['m'] = [] :=
  ⟨rfl, by
    have h := (relay_policy [0, 1] "product_updates" ['m']).1 rfl
    simpa using h,
    (relay_policy [0, 1] "alerts" ['m']).2.2 (by decide) (by decide)⟩

end RedisDemo
